import Mathlib

/-
Verification of the message-processing core of pipelinewise-target-postgres
(file target_postgres/__init__.py).

The development shallowly embeds `persist_lines` and its helpers as pure Lean
functions.  Python JSON-like values become the inductive type `PyVal`
(Python `None` and JSON `null` are both `PyVal.none`, exactly as in Python
after `json.loads`).  Python dicts become association lists in insertion
order, with `dictSet`/`aset` mirroring dict assignment (replace in place if
the key exists, append otherwise) and `alookup`/`dictGet` mirroring lookup.
Exceptions become `Except String`.  External collaborators are modelled as
oracles carried by the input messages:

* the jsonschema validator (built in the SCHEMA branch from the declared
  schema, invoked on `float_to_decimal` of the record) is an external
  capability; its outcome for a given record is the `validate` field of the
  record message (`ok`, or the class name of the raised exception, which is
  all the source inspects: `type(ex).__name__ == "InvalidOperation"`);
* `datetime.now().isoformat()` is the `now` field of the record message;
* the destination database (DbSync DDL and bulk loads) is modelled by an
  append-only log of the `flush_records` calls performed, each recording the
  stream and the buffer rows handed over.

Buffered rows additionally carry a ghost field `ver`: the number of SCHEMA
messages seen for the stream when the row was buffered.  It does not
influence control flow; it only lets theorems speak about which schema
version a buffered row was accepted under.
-/

/-- A Python value as produced by `json.loads`: `PyVal.none` is Python
`None`, `float` a Python float (carrying its `str` image, which is all
`float_to_decimal` uses), `decimal` a `decimal.Decimal`. -/
inductive PyVal where
  | float (s : String)
  | decimal (s : String)
  | int (n : Int)
  | str (s : String)
  | bool (b : Bool)
  | none
  | list (xs : List PyVal)
  | dict (kvs : List (String × PyVal))
deriving Repr

mutual
/-- Embeds `float_to_decimal` (lines 22-31): walk the value and turn every
float into `Decimal(str(value))`; lists and dicts are rebuilt recursively,
all other leaves are returned unchanged. -/
def float_to_decimal : PyVal → PyVal
  | .float s => .decimal s
  | .list xs => .list (float_to_decimal_list xs)
  | .dict kvs => .dict (float_to_decimal_dict kvs)
  | .decimal s => .decimal s
  | .int n => .int n
  | .str s => .str s
  | .bool b => .bool b
  | .none => .none

/-- The list comprehension inside `float_to_decimal`. -/
def float_to_decimal_list : List PyVal → List PyVal
  | [] => []
  | x :: xs => float_to_decimal x :: float_to_decimal_list xs

/-- The dict comprehension inside `float_to_decimal`. -/
def float_to_decimal_dict : List (String × PyVal) → List (String × PyVal)
  | [] => []
  | (k, v) :: kvs => (k, float_to_decimal v) :: float_to_decimal_dict kvs
end

/-- Lookup in an insertion-ordered association list (Python `d[k]` /
`d.get(k)`). -/
def alookup {β : Type} : List (String × β) → String → Option β
  | [], _ => Option.none
  | (k', v') :: t, k => if k' = k then some v' else alookup t k

/-- Python dict assignment `d[k] = v`: replace in place when the key is
present, append otherwise. -/
def aset {β : Type} : List (String × β) → String → β → List (String × β)
  | [], k, v => [(k, v)]
  | (k', v') :: t, k, v => if k' = k then (k, v) :: t else (k', v') :: aset t k v

/-- Digit characters of a positive natural number, most significant first;
`fuel` bounds the recursion depth (any `fuel ≥ n` is enough). -/
def natToStrCore : Nat → Nat → List Char
  | _, 0 => []
  | 0, _ => []
  | fuel + 1, n + 1 =>
    natToStrCore fuel ((n + 1) / 10) ++ [Nat.digitChar ((n + 1) % 10)]

/-- Decimal rendering of a natural number, as the format specifier in
the RID format call on `row_count[stream]` produces. -/
def natToStr (n : Nat) : String :=
  if n = 0 then "0" else ⟨natToStrCore n n⟩

/-- String rendering of a scalar Python value, used when concatenating
primary-key field values into the primary-key string. -/
def pyStr : PyVal → String
  | .str s => s
  | .int n => if n < 0 then "-" ++ natToStr n.natAbs else natToStr n.natAbs
  | .bool b => if b then "True" else "False"
  | .float s => s
  | .decimal s => s
  | .none => "None"
  | .list _ => ""
  | .dict _ => ""

/-- Modelled from the spec: `DbSync.record_primary_key_string` is defined in
`target_postgres/db_sync.py`, which is not among the provided source files;
only its call site (line 117) is.  Spec section 4.2: the primary-key string
is computed by concatenating the record values for the declared primary-key
fields, in declared order; if the primary-key field list is empty or the
record lacks those fields, the result is falsy and a synthetic key is used
instead.  `Option.none` stands for the falsy Python `None`. -/
def record_primary_key_string (key_props : List String) (record : PyVal) : Option String :=
  if key_props.isEmpty then Option.none
  else
    let vals := key_props.map fun f =>
      match record with
      | .dict kvs => alookup kvs f
      | _ => Option.none
    if vals.all Option.isSome then
      some (String.intercalate "," (vals.map fun v => pyStr (v.getD PyVal.none)))
    else Option.none

/-- Python truthiness test `if not primary_key_string` on an optional
string: `None` and the empty string are falsy. -/
def pyFalsy : Option String → Bool
  | Option.none => true
  | some s => s.isEmpty

/-- Recognized configuration surface of `persist_lines` (`config.get`
calls): an absent option is `Option.none` / `false` and the `getD` defaults
below mirror the source defaults. -/
structure Config where
  batch_size_rows : Option Nat := Option.none
  add_metadata_columns : Bool := false
  hard_delete : Bool := false
  primary_key_required : Option Bool := Option.none
deriving Repr

/-- Line 83: `config.get` of batch_size_rows with default 100000. -/
def Config.batchSizeRows (c : Config) : Nat := c.batch_size_rows.getD 100000

/-- Line 165: `config.get` of primary_key_required with default True. -/
def Config.pkRequired (c : Config) : Bool := c.primary_key_required.getD true

def defaultConfig : Config := {}

/-- Outcome of the external jsonschema validator on a record (line 109):
either no exception, or an exception whose class name is `name`. -/
inductive ValidateResult where
  | ok
  | exn (name : String)
deriving Repr, DecidableEq

/-- A RECORD message together with the oracle outcomes of its external
collaborators (validator verdict and wall clock). -/
structure RecordMsg where
  stream : String
  record : PyVal
  time_extracted : Option PyVal := Option.none
  validate : ValidateResult := .ok
  now : String := ""
deriving Repr

/-- A decoded singer message.  Field presence checks already performed on
the raw JSON (the `type` and `stream` keys) are part of decoding;
`key_properties` stays optional because its absence is what lines 154-155
test. -/
inductive Msg where
  | record (m : RecordMsg)
  | state (value : PyVal)
  | schema (stream : String) (sch : PyVal) (key_properties : Option (List String))
  | activate_version
deriving Repr

/-- A buffered pending row: the stored payload plus the ghost schema
version (number of SCHEMA messages seen for the stream at buffering
time). -/
structure Row where
  value : PyVal
  ver : Nat
deriving Repr

/-- One `flush_records` call observed by the destination: the stream and
the buffer contents handed over (in buffer iteration order). -/
structure Flush where
  stream : String
  rows : List (String × Row)
deriving Repr

/-- The mutable locals of `persist_lines` (lines 75-83).  `schemas` keeps
the set of registered stream names (the stored schema object itself only
feeds the external validator); `key_properties` doubles as the content the
DbSync handle of each stream derives its primary-key list from;
`schema_ver` is ghost instrumentation; `flushed` is the destination-call
log.  `csv_files_to_load` (line 179) is dead state in the source - it is
written and never read - and is omitted. -/
structure PState where
  state : PyVal := .none
  schemas : List String := []
  key_properties : List (String × List String) := []
  records_to_load : List (String × List (String × Row)) := []
  row_count : List (String × Nat) := []
  schema_ver : List (String × Nat) := []
  flushed : List Flush := []
deriving Repr

def initState : PState := {}

/-- Embeds `add_metadata_values_to_record` (lines 50-59) for a dict record:
set `_sdc_extracted_at` to the message `time_extracted`, `_sdc_batched_at`
to the wall clock, `_sdc_deleted_at` to the record value of that key. -/
def add_metadata_values_to_record (m : RecordMsg) (kvs : List (String × PyVal)) : PyVal :=
  let kvs1 := dictSet kvs "_sdc_extracted_at" (m.time_extracted.getD PyVal.none)
  let kvs2 := dictSet kvs1 "_sdc_batched_at" (.str m.now)
  let kvs3 := dictSet kvs2 "_sdc_deleted_at" ((alookup kvs "_sdc_deleted_at").getD PyVal.none)
  .dict kvs3
where dictSet := @aset PyVal

/-- Lines 124-127: the payload stored into the buffer - the record itself,
or the record extended with metadata columns; item assignment on a
non-dict record raises TypeError. -/
def payload_of (cfg : Config) (m : RecordMsg) : Except String PyVal :=
  if cfg.add_metadata_columns || cfg.hard_delete then
    match m.record with
    | .dict kvs => .ok (add_metadata_values_to_record m kvs)
    | _ => .error "TypeError"
  else .ok m.record

/-- Lines 121-134 plus line 136: store the payload into the buffer under
the derived primary-key string (creating the buffer on first use),
recompute `row_count` as the buffer size, flush and reset when the batch
threshold is reached, and clear the candidate checkpoint. -/
def store_state (cfg : Config) (s : PState) (m : RecordMsg)
    (primary_key_string : String) (payload : PyVal) : PState :=
  let ver := (alookup s.schema_ver m.stream).getD 0
  let buf := (alookup s.records_to_load m.stream).getD []
  let buf' := aset buf primary_key_string ⟨payload, ver⟩
  if buf'.length ≥ cfg.batchSizeRows then
    { s with flushed := s.flushed ++ [⟨m.stream, buf'⟩],
             records_to_load := aset s.records_to_load m.stream [],
             row_count := aset s.row_count m.stream 0,
             state := .none }
  else
    { s with records_to_load := aset s.records_to_load m.stream buf',
             row_count := aset s.row_count m.stream buf'.length,
             state := .none }

/-- The storing tail of the RECORD branch, with the payload computation
that can raise TypeError factored in front. -/
def process_record_store (cfg : Config) (s : PState) (m : RecordMsg)
    (primary_key_string : String) : Except String PState :=
  match payload_of cfg m with
  | .error e => .error e
  | .ok payload => .ok (store_state cfg s m primary_key_string payload)

/-- Lines 117-119: derive the primary-key string via the DbSync handle of
the stream; a falsy result is replaced by the synthetic key
`RID-<row_count[stream]>`. -/
def process_record_body (cfg : Config) (s : PState) (m : RecordMsg) : Except String PState :=
  match alookup s.key_properties m.stream with
  | Option.none => .error "KeyError"
  | some kp =>
    if pyFalsy (record_primary_key_string kp m.record) then
      match alookup s.row_count m.stream with
      | Option.none => .error "KeyError"
      | some rc => process_record_store cfg s m ("RID-" ++ natToStr rc)
    else
      process_record_store cfg s m ((record_primary_key_string kp m.record).getD "")

/-- The RECORD branch (lines 97-136): reject a record whose stream has no
registered schema; invoke the external validator, swallowing any failure
except an `InvalidOperation`, which is re-raised; then buffer the
record. -/
def process_record (cfg : Config) (s : PState) (m : RecordMsg) : Except String PState :=
  if m.stream ∈ s.schemas then
    match m.validate with
    | .exn name =>
      if name = "InvalidOperation" then .error "InvalidOperation"
      else process_record_body cfg s m
    | .ok => process_record_body cfg s m
  else .error "record encountered before a corresponding schema"

/-- Lines 153-178, the part of the SCHEMA branch after the flush: reject a
message without `key_properties` (unconditionally, lines 154-155) or with
an empty `key_properties` list when primary keys are required (lines
165-167); record the key properties and reset the row counter.  DbSync
construction, `create_schema_if_not_exists` and `sync_table` are
destination-side effects outside the state; the ghost `schema_ver` is
incremented. -/
def process_schema_tail (cfg : Config) (s2 : PState) (stream : String)
    (key_properties : Option (List String)) : Except String PState :=
  match key_properties with
  | Option.none => .error "key_properties field is required"
  | some kp =>
    if cfg.pkRequired ∧ kp.length = 0 then .error "key_properties field is required"
    else
      .ok { s2 with key_properties := aset s2.key_properties stream kp,
                    row_count := aset s2.row_count stream 0,
                    schema_ver := aset s2.schema_ver stream
                      ((alookup s2.schema_ver stream).getD 0 + 1) }

/-- The SCHEMA branch (lines 140-179): register the stream (line 145),
build the validator from `float_to_decimal` of the schema (lines 146-147,
an external capability), flush a non-empty pending buffer left by a
previous schema without clearing it (lines 149-151), then run the checks
and registrations of `process_schema_tail`. -/
def process_schema (cfg : Config) (s : PState) (stream : String)
    (key_properties : Option (List String)) : Except String PState :=
  let s1 := { s with schemas := if stream ∈ s.schemas then s.schemas else s.schemas ++ [stream] }
  if (alookup s1.row_count stream).getD 0 > 0 then
    match alookup s1.records_to_load stream with
    | Option.none => .error "KeyError"
    | some buf =>
      process_schema_tail cfg { s1 with flushed := s1.flushed ++ [⟨stream, buf⟩] }
        stream key_properties
  else process_schema_tail cfg s1 stream key_properties

/-- One iteration of the message loop (lines 86-184), dispatching on the
message type.  ACTIVATE_VERSION is logged and otherwise ignored. -/
def step (cfg : Config) (s : PState) : Msg → Except String PState
  | .record m => process_record cfg s m
  | .state v => .ok { s with state := v }
  | .schema stream _sch kp => process_schema cfg s stream kp
  | .activate_version => .ok s

/-- Embeds `load_stream_batch` (lines 202-214) for one stream of the
terminal phase: flush the pending buffer when the row counter is positive
(index creation and hard-delete purge are destination-side effects). -/
def load_stream_batch (s : PState) (stream : String) : Except String PState :=
  match alookup s.records_to_load stream with
  | Option.none => .error "KeyError"
  | some buf =>
    match alookup s.row_count stream with
    | Option.none => .error "KeyError"
    | some rc =>
      if rc > 0 then .ok { s with flushed := s.flushed ++ [⟨stream, buf⟩] } else .ok s

/-- Embeds `persist_lines` (lines 73-198): fold the message loop over the
input, then run one terminal `load_stream_batch` per stream in
`records_to_load` (the threading backend runs them over disjoint streams;
the log records them in key order), and return the final state, whose
`state` field is the value `persist_lines` returns. -/
def persist_lines (cfg : Config) (msgs : List Msg) : Except String PState := do
  let s ← msgs.foldlM (step cfg) initState
  (s.records_to_load.map Prod.fst).foldlM load_stream_batch s

/-- Embeds `emit_state` (lines 62-69): one line on standard output when the
value is not `None`, nothing otherwise. -/
def emit_state : PyVal → List PyVal
  | .none => []
  | v => [v]

/-- Embeds `main` (lines 238-255) observable output: the lines written to
standard output by a run - none when `persist_lines` raises. -/
def run_output (cfg : Config) (msgs : List Msg) : List PyVal :=
  match persist_lines cfg msgs with
  | .ok s => emit_state s.state
  | .error _ => []

/-- Whether a message is a State or a Record message. -/
def isStateOrRecord : Msg → Bool
  | .state _ => true
  | .record _ => true
  | _ => false

/-- Spec-worded checkpoint description (section 4.2): the surviving
candidate is the value carried by the most recent State message that is
not followed by any Record message; `PyVal.none` when none survives.  It
scans the input from the end for the first State or Record message. -/
def last_checkpoint (msgs : List Msg) : PyVal :=
  match msgs.reverse.find? isStateOrRecord with
  | some (.state v) => v
  | _ => PyVal.none

/-- The primary-key string lines 117-119 would derive for a record message
in a given state (`Option.none` when the lookups they perform would
fail). -/
def derived_pk (s : PState) (m : RecordMsg) : Option String :=
  match alookup s.key_properties m.stream with
  | Option.none => Option.none
  | some kp =>
    let pk0 := record_primary_key_string kp m.record
    if pyFalsy pk0 then
      match alookup s.row_count m.stream with
      | Option.none => Option.none
      | some rc => some ("RID-" ++ natToStr rc)
    else some (pk0.getD "")

/-- Whether an `Except` result is a success. -/
def exceptOk : Except String PState → Bool
  | .ok _ => true
  | .error _ => false

/-- Buffer well-formedness: in every pending buffer, at most one row per
primary-key string (the buffer key lists contain no duplicate). -/
def BufInv (s : PState) : Prop :=
  ∀ stream buf, alookup s.records_to_load stream = some buf → (buf.map Prod.fst).Nodup

/-- A file-system event of `flush_records` (lines 218-235). -/
inductive FsEvent where
  | mkstemp_create (name : String)
  | write_rows (name : String)
  | load_csv (ok : Bool)
  | remove (name : String)
deriving Repr, DecidableEq

/-- Embeds the file lifecycle of `flush_records` (lines 218-235): `mkstemp`
creates the artifact, the rows are written, `load_csv` performs the bulk
transfer (the oracle `load_ok` says whether it succeeds), and `os.remove`
runs after the `with` block with no try/finally around it - so when
`load_csv` raises, the exception propagates and the remove event never
happens (the `with` block still closes the descriptor).  Returns the event
trace and whether an exception propagated out of the call. -/
def flush_records_fs (tmpName : String) (load_ok : Bool) : List FsEvent × Bool :=
  let ev0 := [FsEvent.mkstemp_create tmpName, FsEvent.write_rows tmpName, FsEvent.load_csv load_ok]
  if load_ok then (ev0 ++ [FsEvent.remove tmpName], false) else (ev0, true)

/-! Helper lemmas about the decimal rendering and association lists. -/

/-- Left inverse of `Nat.digitChar` on decimal digits. -/
def charDigit (c : Char) : Nat := c.toNat - 48

/-- Numeric value read back from a rendered string. -/
def strVal (s : String) : Nat := Nat.ofDigits 10 ((s.data.map charDigit).reverse)

theorem charDigit_digitChar : ∀ d, d < 10 → charDigit (Nat.digitChar d) = d := by decide

/-- The fuel-based digit rendering agrees with `Nat.digits`. -/
theorem natToStrCore_eq : ∀ fuel n, n ≤ fuel →
    natToStrCore fuel n = (Nat.digits 10 n).reverse.map Nat.digitChar := by
  intro fuel
  induction fuel with
  | zero =>
    intro n hn
    interval_cases n
    simp [natToStrCore]
  | succ fuel ih =>
    intro n hn
    cases n with
    | zero => simp [natToStrCore]
    | succ n =>
      rw [show natToStrCore (fuel + 1) (n + 1)
          = natToStrCore fuel ((n + 1) / 10) ++ [Nat.digitChar ((n + 1) % 10)] from rfl]
      rw [ih ((n + 1) / 10)
        (by have := Nat.div_lt_self (Nat.succ_pos n) (by norm_num : 1 < 10); omega)]
      rw [Nat.digits_def' (by norm_num : 1 < 10) (Nat.succ_pos n)]
      simp [List.map_append]

theorem strVal_natToStr (n : Nat) : strVal (natToStr n) = n := by
  unfold natToStr strVal
  by_cases hn : n = 0
  · simp [hn]; rfl
  · simp only [hn, if_false]
    rw [natToStrCore_eq n n le_rfl, List.map_map]
    have hmap : ((Nat.digits 10 n).reverse.map (charDigit ∘ Nat.digitChar)).reverse
        = Nat.digits 10 n := by
      rw [List.map_reverse, List.reverse_reverse]
      have hid : ∀ l : List Nat, (∀ x ∈ l, x < 10) → l.map (charDigit ∘ Nat.digitChar) = l := by
        intro l hl
        induction l with
        | nil => rfl
        | cons a t ih =>
          simp only [List.map_cons, Function.comp]
          rw [charDigit_digitChar a (hl a (by simp)), ih (fun x hx => hl x (by simp [hx]))]
      exact hid _ (fun x hx => Nat.digits_lt_base (by norm_num) hx)
    rw [hmap, Nat.ofDigits_digits]

theorem natToStr_inj (m n : Nat) (h : natToStr m = natToStr n) : m = n := by
  have := congrArg strVal h
  rwa [strVal_natToStr, strVal_natToStr] at this

theorem rid_key_inj (m n : Nat) (h : "RID-" ++ natToStr m = "RID-" ++ natToStr n) : m = n := by
  apply natToStr_inj
  have hd := congrArg String.data h
  simp only [String.data_append] at hd
  exact String.ext (List.append_cancel_left hd)

theorem alookup_aset_self {β : Type} (l : List (String × β)) (k : String) (v : β) :
    alookup (aset l k v) k = some v := by
  induction l with
  | nil => simp [aset, alookup]
  | cons p t ih =>
    obtain ⟨k0, v0⟩ := p
    by_cases h : k0 = k <;> simp [aset, alookup, h, ih]

theorem alookup_aset_ne {β : Type} (l : List (String × β)) (k k' : String) (v : β)
    (h : k' ≠ k) : alookup (aset l k v) k' = alookup l k' := by
  induction l with
  | nil => simp [aset, alookup, Ne.symm h]
  | cons p t ih =>
    obtain ⟨k0, v0⟩ := p
    by_cases h0 : k0 = k <;> simp [aset, alookup, h0, ih, Ne.symm h]

theorem keys_aset {β : Type} (l : List (String × β)) (k : String) (v : β) :
    (aset l k v).map Prod.fst =
      if k ∈ l.map Prod.fst then l.map Prod.fst else l.map Prod.fst ++ [k] := by
  induction l with
  | nil => simp [aset]
  | cons p t ih =>
    obtain ⟨k0, v0⟩ := p
    by_cases h0 : k0 = k
    · simp [aset, h0]
    · by_cases hk : k ∈ t.map Prod.fst <;>
        simp [aset, alookup, h0, ih, hk, Ne.symm h0]

theorem length_aset {β : Type} (l : List (String × β)) (k : String) (v : β) :
    (aset l k v).length = if k ∈ l.map Prod.fst then l.length else l.length + 1 := by
  have h := congrArg List.length (keys_aset l k v)
  rw [List.length_map, apply_ite List.length, List.length_map, List.length_append] at h
  simpa using h

theorem mem_keys_aset_self {β : Type} (l : List (String × β)) (k : String) (v : β) :
    k ∈ (aset l k v).map Prod.fst := by
  rw [keys_aset]
  split <;> simp [*]

theorem nodup_keys_aset {β : Type} (l : List (String × β)) (k : String) (v : β)
    (h : (l.map Prod.fst).Nodup) : ((aset l k v).map Prod.fst).Nodup := by
  rw [keys_aset]
  by_cases hk : k ∈ l.map Prod.fst
  · simpa [hk] using h
  · simp [hk, List.nodup_append, h]

theorem alookup_eq_none_of_not_mem {β : Type} (l : List (String × β)) (k : String)
    (h : k ∉ l.map Prod.fst) : alookup l k = Option.none := by
  induction l with
  | nil => rfl
  | cons p t ih =>
    obtain ⟨k0, v0⟩ := p
    simp only [List.map_cons, List.mem_cons] at h
    push_neg at h
    simp [alookup, Ne.symm h.1, ih h.2]

/-! Characterization of the individual message-processing branches. -/

theorem process_record_store_ok (cfg : Config) (s : PState) (m : RecordMsg) (pk : String)
    (s' : PState) (h : process_record_store cfg s m pk = .ok s') :
    ∃ payload, payload_of cfg m = .ok payload ∧ s' = store_state cfg s m pk payload := by
  unfold process_record_store at h
  split at h
  · simp at h
  · next payload hpay => exact ⟨payload, hpay, by injection h; simp [*]⟩

theorem process_record_body_ok (cfg : Config) (s : PState) (m : RecordMsg) (s' : PState)
    (h : process_record_body cfg s m = .ok s') :
    ∃ pk payload, derived_pk s m = some pk ∧ payload_of cfg m = .ok payload ∧
      s' = store_state cfg s m pk payload := by
  unfold process_record_body at h
  split at h
  · simp at h
  · next kp hkp =>
    split at h
    · next hfalsy =>
      split at h
      · simp at h
      · next rc hrc =>
        obtain ⟨payload, hpay, hs⟩ := process_record_store_ok cfg s m _ s' h
        exact ⟨_, payload, by simp [derived_pk, hkp, hfalsy, hrc], hpay, hs⟩
    · next hfalsy =>
      obtain ⟨payload, hpay, hs⟩ := process_record_store_ok cfg s m _ s' h
      exact ⟨_, payload, by simp [derived_pk, hkp, hfalsy], hpay, hs⟩

theorem process_record_ok (cfg : Config) (s : PState) (m : RecordMsg) (s' : PState)
    (h : process_record cfg s m = .ok s') :
    m.stream ∈ s.schemas ∧
    ∃ pk payload, derived_pk s m = some pk ∧ payload_of cfg m = .ok payload ∧
      s' = store_state cfg s m pk payload := by
  unfold process_record at h
  split at h
  · next hmem =>
    refine ⟨hmem, ?_⟩
    split at h
    · split at h
      · simp at h
      · exact process_record_body_ok cfg s m s' h
    · exact process_record_body_ok cfg s m s' h
  · simp at h

/-- The stored state always has a cleared checkpoint candidate. -/
theorem store_state_state (cfg : Config) (s : PState) (m : RecordMsg) (pk : String)
    (payload : PyVal) : (store_state cfg s m pk payload).state = PyVal.none := by
  simp only [store_state]
  split <;> rfl

theorem process_schema_tail_frame (cfg : Config) (s2 : PState) (stream : String)
    (kp : Option (List String)) (s' : PState)
    (h : process_schema_tail cfg s2 stream kp = .ok s') :
    s'.state = s2.state ∧ s'.records_to_load = s2.records_to_load ∧
    s'.schemas = s2.schemas ∧ s'.flushed = s2.flushed := by
  unfold process_schema_tail at h
  split at h
  · simp at h
  · split at h
    · simp at h
    · injection h with h
      subst h
      exact ⟨rfl, rfl, rfl, rfl⟩

/-- The SCHEMA branch never touches the checkpoint candidate nor the
pending buffers. -/
theorem process_schema_frame (cfg : Config) (s : PState) (stream : String)
    (kp : Option (List String)) (s' : PState)
    (h : process_schema cfg s stream kp = .ok s') :
    s'.state = s.state ∧ s'.records_to_load = s.records_to_load := by
  simp only [process_schema] at h
  split at h
  · split at h
    · simp at h
    · have := process_schema_tail_frame _ _ _ _ _ h
      exact ⟨this.1, this.2.1⟩
  · have := process_schema_tail_frame _ _ _ _ _ h
    exact ⟨this.1, this.2.1⟩

/-! Fold-level lemmas: how the message loop and the terminal flush loop
treat the checkpoint candidate. -/

theorem foldlM_cons_ok {α : Type} (f : PState → α → Except String PState) (a : α) (t : List α)
    (s s' : PState) (h : (a :: t).foldlM f s = .ok s') :
    ∃ s1, f s a = .ok s1 ∧ t.foldlM f s1 = .ok s' := by
  simp only [List.foldlM_cons] at h
  cases hfa : f s a with
  | error e =>
    rw [hfa] at h
    rw [show (Except.error e : Except String PState) >>= (fun x => t.foldlM f x)
        = Except.error e from rfl] at h
    cases h
  | ok s1 =>
    rw [hfa] at h
    rw [show (Except.ok s1 : Except String PState) >>= (fun x => t.foldlM f x)
        = t.foldlM f s1 from rfl] at h
    exact ⟨s1, rfl, h⟩

/-- How one step changes the checkpoint candidate: a State message
replaces it, a Record message clears it, everything else keeps it. -/
theorem step_state_eq (cfg : Config) (s : PState) (m : Msg) (s' : PState)
    (h : step cfg s m = .ok s') :
    s'.state = (match m with
      | .state v => v
      | .record _ => PyVal.none
      | _ => s.state) := by
  cases m with
  | record rm =>
    obtain ⟨_, pk, payload, _, _, hs⟩ := process_record_ok cfg s rm s' h
    simp [hs, store_state_state]
  | state v => injection h with h; subst h; rfl
  | schema stream sch kp => exact (process_schema_frame cfg s stream kp s' h).1
  | activate_version => injection h with h; subst h; rfl

theorem foldlM_step_state (cfg : Config) : ∀ (msgs : List Msg) (s s' : PState),
    msgs.foldlM (step cfg) s = .ok s' →
    s'.state = (match msgs.reverse.find? isStateOrRecord with
      | some (.state v) => v
      | some _ => PyVal.none
      | Option.none => s.state) := by
  intro msgs
  induction msgs with
  | nil =>
    intro s s' h
    simp only [List.foldlM_nil] at h
    rw [show (pure s : Except String PState) = Except.ok s from rfl] at h
    injection h with h
    subst h
    rfl
  | cons m t ih =>
    intro s s' h
    obtain ⟨s1, hm, ht⟩ := foldlM_cons_ok (step cfg) m t s s' h
    have h1 := ih s1 s' ht
    have h2 := step_state_eq cfg s m s1 hm
    rw [List.reverse_cons, List.find?_append]
    cases hfind : t.reverse.find? isStateOrRecord with
    | some x =>
      rw [hfind] at h1
      rw [show (some x).or (List.find? isStateOrRecord [m]) = some x from rfl]
      cases x <;> exact h1
    | none =>
      rw [hfind] at h1
      rw [show (Option.none).or (List.find? isStateOrRecord [m]) = List.find? isStateOrRecord [m] from rfl]
      cases m with
      | record rm => simpa [List.find?, isStateOrRecord] using h1.trans h2
      | state v => simpa [List.find?, isStateOrRecord] using h1.trans h2
      | schema stream sch kp => simpa [List.find?, isStateOrRecord] using h1.trans h2
      | activate_version => simpa [List.find?, isStateOrRecord] using h1.trans h2

theorem load_stream_batch_frame (s : PState) (stream : String) (s' : PState)
    (h : load_stream_batch s stream = .ok s') :
    s'.state = s.state ∧ s'.records_to_load = s.records_to_load := by
  unfold load_stream_batch at h
  split at h
  · simp at h
  · split at h
    · simp at h
    · split at h <;> (injection h with h; subst h; exact ⟨rfl, rfl⟩)

theorem foldlM_load_state : ∀ (streams : List String) (s s' : PState),
    streams.foldlM load_stream_batch s = .ok s' → s'.state = s.state := by
  intro streams
  induction streams with
  | nil =>
    intro s s' h
    simp only [List.foldlM_nil] at h
    rw [show (pure s : Except String PState) = Except.ok s from rfl] at h
    injection h with h
    subst h
    rfl
  | cons a t ih =>
    intro s s' h
    obtain ⟨s1, h1, h2⟩ := foldlM_cons_ok load_stream_batch a t s s' h
    rw [ih s1 s' h2, (load_stream_batch_frame s a s1 h1).1]

theorem emit_state_of_ne (v : PyVal) (hv : v ≠ PyVal.none) : emit_state v = [v] := by
  cases v <;> first | exact absurd rfl hv | rfl

theorem except_bind_ok_inv {g : PState → Except String PState} {x : Except String PState}
    {s' : PState} (h : x >>= g = .ok s') : ∃ s0, x = .ok s0 ∧ g s0 = .ok s' := by
  cases x with
  | error e =>
    rw [show (Except.error e : Except String PState) >>= g = Except.error e from rfl] at h
    cases h
  | ok s0 =>
    rw [show (Except.ok s0 : Except String PState) >>= g = g s0 from rfl] at h
    exact ⟨s0, rfl, h⟩

mutual
theorem ftd_idem : (v : PyVal) → float_to_decimal (float_to_decimal v) = float_to_decimal v
  | .float _ | .decimal _ | .int _ | .str _ | .bool _ | .none => rfl
  | .list xs => by simp [float_to_decimal, ftd_idem_list xs]
  | .dict kvs => by simp [float_to_decimal, ftd_idem_dict kvs]

theorem ftd_idem_list : (xs : List PyVal) →
    float_to_decimal_list (float_to_decimal_list xs) = float_to_decimal_list xs
  | [] => rfl
  | x :: xs => by simp [float_to_decimal_list, ftd_idem x, ftd_idem_list xs]

theorem ftd_idem_dict : (kvs : List (String × PyVal)) →
    float_to_decimal_dict (float_to_decimal_dict kvs) = float_to_decimal_dict kvs
  | [] => rfl
  | (k, v) :: kvs => by simp [float_to_decimal_dict, ftd_idem v, ftd_idem_dict kvs]
end

theorem process_record_body_validate_irrel (cfg : Config) (s : PState) (m : RecordMsg)
    (v : ValidateResult) :
    process_record_body cfg s { m with validate := v } = process_record_body cfg s m := by
  cases m
  rfl

/-! The claim theorems. -/

/-- C9: the float-to-decimal normalization applied before validation is
idempotent: applying `float_to_decimal` to its own output yields the same
result as applying it once, for every JSON-like value tree. -/
theorem float_to_decimal_idempotent (v : PyVal) :
    float_to_decimal (float_to_decimal v) = float_to_decimal v := ftd_idem v

/-- C10: processing a State message changes only the candidate checkpoint
value; the registered schemas, key properties, pending buffers, row
counters, destination-sync content (the per-stream key properties feeding
the sync handles) and the flush log are left unchanged. -/
theorem state_message_changes_only_checkpoint (cfg : Config) (s : PState) (v : PyVal)
    (s' : PState) (h : step cfg s (.state v) = .ok s') :
    s'.state = v ∧ s'.schemas = s.schemas ∧ s'.key_properties = s.key_properties ∧
    s'.records_to_load = s.records_to_load ∧ s'.row_count = s.row_count ∧
    s'.schema_ver = s.schema_ver ∧ s'.flushed = s.flushed := by
  injection h with h
  subst h
  exact ⟨rfl, rfl, rfl, rfl, rfl, rfl, rfl⟩

theorem state_message_changes_only_checkpoint_witness :
    (⟨PyVal.int 7, ["s"], [], [], [], [], []⟩ : PState).state = PyVal.int 7 ∧
    (⟨PyVal.int 7, ["s"], [], [], [], [], []⟩ : PState).schemas
      = ({ initState with schemas := ["s"] } : PState).schemas ∧
    (⟨PyVal.int 7, ["s"], [], [], [], [], []⟩ : PState).key_properties
      = ({ initState with schemas := ["s"] } : PState).key_properties ∧
    (⟨PyVal.int 7, ["s"], [], [], [], [], []⟩ : PState).records_to_load
      = ({ initState with schemas := ["s"] } : PState).records_to_load ∧
    (⟨PyVal.int 7, ["s"], [], [], [], [], []⟩ : PState).row_count
      = ({ initState with schemas := ["s"] } : PState).row_count ∧
    (⟨PyVal.int 7, ["s"], [], [], [], [], []⟩ : PState).schema_ver
      = ({ initState with schemas := ["s"] } : PState).schema_ver ∧
    (⟨PyVal.int 7, ["s"], [], [], [], [], []⟩ : PState).flushed
      = ({ initState with schemas := ["s"] } : PState).flushed :=
  state_message_changes_only_checkpoint defaultConfig { initState with schemas := ["s"] }
    (PyVal.int 7) _ rfl

/-- C2: the checkpoint value returned by `persist_lines` and emitted at
process end is exactly the value of the most recent State message not
followed by any Record message (every State message replaces the
candidate, every Record message clears it); at end of run exactly one
output line containing it is emitted when a (non-null) candidate
survived, and nothing is emitted otherwise. -/
theorem checkpoint_is_last_uninterrupted_state_value (cfg : Config) (msgs : List Msg)
    (s : PState) (h : persist_lines cfg msgs = .ok s) :
    s.state = last_checkpoint msgs ∧
    (last_checkpoint msgs = PyVal.none → run_output cfg msgs = []) ∧
    (last_checkpoint msgs ≠ PyVal.none → run_output cfg msgs = [last_checkpoint msgs]) := by
  have hrun : run_output cfg msgs = emit_state s.state := by
    unfold run_output
    rw [h]
  have hP := h
  unfold persist_lines at hP
  obtain ⟨s0, hf, hload⟩ := except_bind_ok_inv hP
  have h0 := foldlM_step_state cfg msgs initState s0 hf
  have h1 := foldlM_load_state _ s0 s hload
  have hs : s.state = last_checkpoint msgs := by
    rw [h1, h0]
    unfold last_checkpoint
    cases msgs.reverse.find? isStateOrRecord with
    | none => rfl
    | some x => cases x <;> rfl
  refine ⟨hs, ?_, ?_⟩
  · intro hnone
    rw [hrun, hs, hnone]
    rfl
  · intro hne
    rw [hrun, hs, emit_state_of_ne _ hne]

theorem checkpoint_is_last_uninterrupted_state_value_witness :
    (⟨PyVal.int 1, [], [], [], [], [], []⟩ : PState).state
      = last_checkpoint [Msg.state (PyVal.int 1)] ∧
    (last_checkpoint [Msg.state (PyVal.int 1)] = PyVal.none →
      run_output defaultConfig [Msg.state (PyVal.int 1)] = []) ∧
    (last_checkpoint [Msg.state (PyVal.int 1)] ≠ PyVal.none →
      run_output defaultConfig [Msg.state (PyVal.int 1)]
        = [last_checkpoint [Msg.state (PyVal.int 1)]]) :=
  checkpoint_is_last_uninterrupted_state_value defaultConfig [Msg.state (PyVal.int 1)] _ rfl

/-- The four-message input exhibiting the schema-change flush: a Schema
for stream s, one record under it, a second Schema for s, one record
under the new schema, then end of input. -/
def msgsSchemaChange : List Msg :=
  [ .schema "s" (PyVal.dict []) (some ["id"]),
    .record { stream := "s", record := PyVal.dict [("id", PyVal.int 1)] },
    .schema "s" (PyVal.dict []) (some ["id"]),
    .record { stream := "s", record := PyVal.dict [("id", PyVal.int 2)] } ]

/-- C3: the claim fails on the code.  The second Schema message flushes the
pending buffer (first logged flush, holding only the version-1 row) and
resets `row_count`, but `records_to_load` is not cleared, so the terminal
flush hands the old row (ghost version 1) and the new-schema row (ghost
version 2) to the destination in one `flush_records` call: two schema
versions mix in one flush, and the version-1 row is loaded twice. -/
theorem schema_change_mixes_versions_in_one_flush :
    (persist_lines defaultConfig msgsSchemaChange).map
        (fun s => s.flushed.map fun f => (f.stream, f.rows.map fun r => (r.1, r.2.ver)))
      = .ok [("s", [("1", 1)]), ("s", [("1", 1), ("2", 2)])] := by
  rfl

/-- C7: a validator failure on a Record message is swallowed - processing
continues exactly as if validation had succeeded, so the record still
proceeds to buffering and loading - unless the exception is an
`InvalidOperation` (fixed-precision overflow), which is re-raised and
aborts the run. -/
theorem validator_failure_swallowed_unless_invalid_operation :
    (∀ (cfg : Config) (s : PState) (m : RecordMsg) (name : String),
      m.validate = .exn name → name ≠ "InvalidOperation" →
      step cfg s (.record m) = step cfg s (.record { m with validate := .ok })) ∧
    (∀ (cfg : Config) (s : PState) (m : RecordMsg),
      m.validate = .exn "InvalidOperation" → m.stream ∈ s.schemas →
      step cfg s (.record m) = .error "InvalidOperation") := by
  constructor
  · intro cfg s m name hval hne
    obtain ⟨stream, r, te, val, now⟩ := m
    simp only at hval
    subst hval
    simp only [step, process_record]
    by_cases hmem : stream ∈ s.schemas
    · simp only [hmem, if_true, if_neg hne]
      exact process_record_body_validate_irrel cfg s ⟨stream, r, te, .exn name, now⟩ .ok
    · simp [hmem]
  · intro cfg s m hval hmem
    obtain ⟨stream, r, te, val, now⟩ := m
    simp only at hval
    subst hval
    simp only [step, process_record] at hmem ⊢
    simp [hmem]

theorem validator_failure_swallowed_unless_invalid_operation_witness :
    (step defaultConfig { initState with schemas := ["s"] }
        (.record { stream := "s", record := PyVal.dict [],
                   validate := .exn "ValidationError" })
      = step defaultConfig { initState with schemas := ["s"] }
        (.record { stream := "s", record := PyVal.dict [], validate := .ok })) ∧
    (step defaultConfig { initState with schemas := ["s"] }
        (.record { stream := "s", record := PyVal.dict [],
                   validate := .exn "InvalidOperation" })
      = .error "InvalidOperation") :=
  ⟨validator_failure_swallowed_unless_invalid_operation.1 defaultConfig
      { initState with schemas := ["s"] }
      { stream := "s", record := PyVal.dict [], validate := .exn "ValidationError" }
      "ValidationError" rfl (by decide),
   validator_failure_swallowed_unless_invalid_operation.2 defaultConfig
      { initState with schemas := ["s"] }
      { stream := "s", record := PyVal.dict [], validate := .exn "InvalidOperation" }
      rfl (by simp)⟩

/-- C5 counterexample: the claim says a Schema lacking `key_properties` is
accepted once `primary_key_required` is disabled; the code still rejects
it (lines 154-155 raise before the configurable check at lines 165-167 is
ever consulted). -/
theorem schema_missing_key_properties_fatal_despite_config :
    step { defaultConfig with primary_key_required := some false } initState
      (.schema "s" (PyVal.dict []) Option.none)
      = .error "key_properties field is required" := rfl

/-- C5 amended: a Schema message without the `key_properties` key is fatal
under every configuration; an empty `key_properties` list is fatal when
primary keys are required (the default: `defaultConfig.pkRequired` is
true) and accepted when `primary_key_required` is disabled (here from a
state whose pending flush, lines 149-151, does not intervene). -/
theorem schema_key_properties_requirements :
    (∀ (cfg : Config) (s : PState) (stream : String) (sch : PyVal),
      exceptOk (step cfg s (.schema stream sch Option.none)) = false) ∧
    (∀ (cfg : Config) (s : PState) (stream : String) (sch : PyVal),
      cfg.pkRequired = true →
      exceptOk (step cfg s (.schema stream sch (some []))) = false) ∧
    (∀ (cfg : Config) (s : PState) (stream : String) (sch : PyVal),
      cfg.pkRequired = false →
      (alookup s.row_count stream).getD 0 = 0 →
      exceptOk (step cfg s (.schema stream sch (some []))) = true) ∧
    defaultConfig.pkRequired = true := by
  refine ⟨?_, ?_, ?_, rfl⟩
  · intro cfg s stream sch
    simp only [step, process_schema]
    split
    · split <;> simp [process_schema_tail, exceptOk]
    · simp [process_schema_tail, exceptOk]
  · intro cfg s stream sch hpk
    simp only [step, process_schema]
    split
    · split <;> simp [process_schema_tail, exceptOk, hpk]
    · simp [process_schema_tail, exceptOk, hpk]
  · intro cfg s stream sch hpk hrc
    simp only [step, process_schema]
    rw [if_neg (by simp [hrc])]
    simp [process_schema_tail, exceptOk, hpk]

theorem schema_key_properties_requirements_witness :
    exceptOk (step defaultConfig initState
        (.schema "t" (PyVal.dict []) Option.none)) = false ∧
    exceptOk (step defaultConfig initState
        (.schema "t" (PyVal.dict []) (some []))) = false ∧
    exceptOk (step { defaultConfig with primary_key_required := some false } initState
        (.schema "t" (PyVal.dict []) (some []))) = true :=
  ⟨schema_key_properties_requirements.1 defaultConfig initState "t" (PyVal.dict []),
   schema_key_properties_requirements.2.1 defaultConfig initState "t" (PyVal.dict []) rfl,
   schema_key_properties_requirements.2.2.1
     { defaultConfig with primary_key_required := some false } initState "t"
     (PyVal.dict []) rfl rfl⟩

/-- C4 counterexample: the claim says the temporary artifact is deleted
both on success and on failure of the bulk transfer; on a failing
`load_csv` the remove event is absent from the trace and the exception
propagates (there is no try/finally around `os.remove`). -/
theorem flush_artifact_not_removed_on_failure :
    FsEvent.remove "t.csv" ∉ (flush_records_fs "t.csv" false).1 ∧
    (flush_records_fs "t.csv" false).2 = true := by
  exact ⟨by decide, rfl⟩

/-- C4 amended: the temporary transfer artifact of a flush is removed when
the bulk transfer completes successfully, and no exception propagates; on
a failing transfer the exception propagates out of `flush_records` and the
artifact is not removed. -/
theorem flush_artifact_removed_on_success (name : String) (load_ok : Bool) :
    (load_ok = true →
      FsEvent.remove name ∈ (flush_records_fs name load_ok).1 ∧
      (flush_records_fs name load_ok).2 = false) ∧
    (load_ok = false →
      FsEvent.remove name ∉ (flush_records_fs name load_ok).1 ∧
      (flush_records_fs name load_ok).2 = true) := by
  constructor
  · intro h
    subst h
    simp [flush_records_fs]
  · intro h
    subst h
    simp [flush_records_fs]

theorem flush_artifact_removed_on_success_witness :
    (FsEvent.remove "batch.csv" ∈ (flush_records_fs "batch.csv" true).1 ∧
      (flush_records_fs "batch.csv" true).2 = false) ∧
    (FsEvent.remove "other.csv" ∉ (flush_records_fs "other.csv" false).1 ∧
      (flush_records_fs "other.csv" false).2 = true) :=
  ⟨(flush_artifact_removed_on_success "batch.csv" true).1 rfl,
   (flush_artifact_removed_on_success "other.csv" false).2 rfl⟩

/-- C6: when storing a record makes the number of distinct-key pending
rows of its stream reach the configured `batch_size_rows` threshold
(default 100000), the buffer is flushed immediately and reset to empty and
the row counter to zero, so the next record for the stream begins a fresh,
empty buffer; the flushed batch holds exactly the rows that were
pending. -/
theorem records_flush_at_batch_threshold (cfg : Config) (s : PState) (m : RecordMsg)
    (s' : PState) (k : String) (buf : List (String × Row))
    (h : step cfg s (.record m) = .ok s')
    (hk : derived_pk s m = some k)
    (hbuf : (alookup s.records_to_load m.stream).getD [] = buf)
    (hthresh : (if k ∈ buf.map Prod.fst then buf.length else buf.length + 1)
      ≥ cfg.batchSizeRows) :
    (alookup s'.records_to_load m.stream = some [] ∧
     alookup s'.row_count m.stream = some 0 ∧
     ∃ rows, s'.flushed = s.flushed ++ [⟨m.stream, rows⟩] ∧
       rows.length = (if k ∈ buf.map Prod.fst then buf.length else buf.length + 1)) ∧
    defaultConfig.batchSizeRows = 100000 := by
  refine ⟨?_, rfl⟩
  obtain ⟨hmem, pk, payload, hpk, hpay, hs⟩ := process_record_ok cfg s m s' h
  have hkpk : k = pk := by
    rw [hpk] at hk
    exact (Option.some.inj hk).symm
  subst hkpk
  subst hs
  simp only [store_state]
  rw [hbuf]
  have hlen := length_aset buf k
    (⟨payload, (alookup s.schema_ver m.stream).getD 0⟩ : Row)
  rw [if_pos (by rw [hlen]; exact hthresh)]
  refine ⟨alookup_aset_self _ _ _, alookup_aset_self _ _ _, ⟨_, rfl, hlen⟩⟩

theorem records_flush_at_batch_threshold_witness :
    (alookup
        ({ state := PyVal.none, schemas := ["s"], key_properties := [("s", ["id"])],
           records_to_load := [("s", [])], row_count := [("s", 0)],
           schema_ver := [("s", 1)],
           flushed := [⟨"s", [("5", ⟨PyVal.dict [("id", PyVal.int 5)], 1⟩)]⟩] }
          : PState).records_to_load "s" = some [] ∧
     alookup
        ({ state := PyVal.none, schemas := ["s"], key_properties := [("s", ["id"])],
           records_to_load := [("s", [])], row_count := [("s", 0)],
           schema_ver := [("s", 1)],
           flushed := [⟨"s", [("5", ⟨PyVal.dict [("id", PyVal.int 5)], 1⟩)]⟩] }
          : PState).row_count "s" = some 0 ∧
     ∃ rows,
       ({ state := PyVal.none, schemas := ["s"], key_properties := [("s", ["id"])],
          records_to_load := [("s", [])], row_count := [("s", 0)],
          schema_ver := [("s", 1)],
          flushed := [⟨"s", [("5", ⟨PyVal.dict [("id", PyVal.int 5)], 1⟩)]⟩] }
         : PState).flushed
         = ({ state := PyVal.none, schemas := ["s"], key_properties := [("s", ["id"])],
              records_to_load := [], row_count := [("s", 0)], schema_ver := [("s", 1)],
              flushed := [] } : PState).flushed ++ [⟨"s", rows⟩] ∧
       rows.length
         = (if "5" ∈ ([] : List (String × Row)).map Prod.fst then ([] : List (String × Row)).length
            else ([] : List (String × Row)).length + 1)) ∧
    defaultConfig.batchSizeRows = 100000 :=
  records_flush_at_batch_threshold { defaultConfig with batch_size_rows := some 1 }
    { state := PyVal.none, schemas := ["s"], key_properties := [("s", ["id"])],
      records_to_load := [], row_count := [("s", 0)], schema_ver := [("s", 1)],
      flushed := [] }
    { stream := "s", record := PyVal.dict [("id", PyVal.int 5)] }
    _ "5" [] rfl rfl rfl (by decide)

theorem payload_of_default (cfg : Config) (m : RecordMsg)
    (h1 : cfg.add_metadata_columns = false) (h2 : cfg.hard_delete = false) :
    payload_of cfg m = .ok m.record := by
  simp [payload_of, h1, h2]

theorem buf_nodup_of_inv (s : PState) (stream : String) (hInv : BufInv s) :
    (((alookup s.records_to_load stream).getD []).map Prod.fst).Nodup := by
  cases hb : alookup s.records_to_load stream with
  | none => simp
  | some b => simpa using hInv stream b hb

theorem store_state_no_flush (cfg : Config) (s : PState) (m : RecordMsg) (pk : String)
    (payload : PyVal) (h : (store_state cfg s m pk payload).flushed = s.flushed) :
    (store_state cfg s m pk payload).records_to_load
      = aset s.records_to_load m.stream
          (aset ((alookup s.records_to_load m.stream).getD []) pk
            ⟨payload, (alookup s.schema_ver m.stream).getD 0⟩) := by
  by_cases hc : (aset ((alookup s.records_to_load m.stream).getD []) pk
      (⟨payload, (alookup s.schema_ver m.stream).getD 0⟩ : Row)).length ≥ cfg.batchSizeRows
  · exfalso
    simp only [store_state] at h
    rw [if_pos hc] at h
    have := congrArg List.length h
    simp at this
  · simp only [store_state]
    rw [if_neg hc]

theorem store_state_schema_ver (cfg : Config) (s : PState) (m : RecordMsg) (pk : String)
    (payload : PyVal) : (store_state cfg s m pk payload).schema_ver = s.schema_ver := by
  simp only [store_state]
  split <;> rfl

/-- C1: within one buffer, at most one pending row exists per derived
primary-key string.  First part: the no-duplicate-keys invariant `BufInv`
is preserved by every message-processing step.  Second part: two Record
messages of one stream that derive the same primary-key string, processed
with no flush in between, leave exactly one pending row under that key,
holding the payload of the later record (last write wins). -/
theorem buffer_last_write_wins :
    (∀ (cfg : Config) (s : PState) (msg : Msg) (s' : PState),
      BufInv s → step cfg s msg = .ok s' → BufInv s') ∧
    (∀ (cfg : Config) (s s1 s2 : PState) (m1 m2 : RecordMsg) (k : String),
      cfg.add_metadata_columns = false → cfg.hard_delete = false →
      BufInv s → m1.stream = m2.stream →
      step cfg s (.record m1) = .ok s1 →
      step cfg s1 (.record m2) = .ok s2 →
      derived_pk s m1 = some k →
      derived_pk s1 m2 = some k →
      s1.flushed = s.flushed →
      s2.flushed = s1.flushed →
      ∃ buf, alookup s2.records_to_load m2.stream = some buf ∧
        (buf.map Prod.fst).count k = 1 ∧
        (alookup buf k).map Row.value = some m2.record) := by
  constructor
  · intro cfg s msg s' hInv hstep
    cases msg with
    | record m =>
      obtain ⟨_, pk, payload, hpk, hpay, hs⟩ := process_record_ok cfg s m s' hstep
      subst hs
      intro stream buf hlook
      simp only [store_state] at hlook
      by_cases hstr : stream = m.stream
      · subst hstr
        split at hlook <;> rw [alookup_aset_self] at hlook
        · injection hlook with hlook
          subst hlook
          simp
        · injection hlook with hlook
          subst hlook
          exact nodup_keys_aset _ _ _ (buf_nodup_of_inv s m.stream hInv)
      · split at hlook <;> rw [alookup_aset_ne _ _ _ _ hstr] at hlook <;>
          exact hInv stream buf hlook
    | state v =>
      injection hstep with hstep
      subst hstep
      exact hInv
    | schema stream sch kp =>
      have hframe := (process_schema_frame cfg s stream kp s' hstep).2
      intro st buf hl
      rw [hframe] at hl
      exact hInv st buf hl
    | activate_version =>
      injection hstep with hstep
      subst hstep
      exact hInv
  · intro cfg s s1 s2 m1 m2 k hmeta hhd hInv hstream h1 h2 hk1 hk2 hnf1 hnf2
    obtain ⟨hm1, pk1, payload1, hpk1, hpay1, hs1⟩ := process_record_ok cfg s m1 s1 h1
    subst hs1
    obtain ⟨hm2, pk2, payload2, hpk2, hpay2, hs2⟩ := process_record_ok cfg _ m2 s2 h2
    subst hs2
    rw [payload_of_default cfg m1 hmeta hhd] at hpay1
    rw [payload_of_default cfg m2 hmeta hhd] at hpay2
    have hp1 : k = pk1 := by rw [hpk1] at hk1; exact (Option.some.inj hk1).symm
    subst hp1
    have hp2 : k = pk2 := by rw [hpk2] at hk2; exact (Option.some.inj hk2).symm
    subst hp2
    have hpl1 : payload1 = m1.record := by
      injection hpay1 with hh
      first | exact hh | exact hh.symm
    have hpl2 : payload2 = m2.record := by
      injection hpay2 with hh
      first | exact hh | exact hh.symm
    subst hpl1
    subst hpl2
    have hrec1 := store_state_no_flush cfg s m1 k m1.record hnf1
    have hrec2 := store_state_no_flush cfg (store_state cfg s m1 k m1.record) m2 k m2.record hnf2
    have hl1 : alookup (store_state cfg s m1 k m1.record).records_to_load m2.stream
        = some (aset ((alookup s.records_to_load m1.stream).getD []) k
            ⟨m1.record, (alookup s.schema_ver m1.stream).getD 0⟩) := by
      rw [hrec1, ← hstream]
      exact alookup_aset_self _ _ _
    refine ⟨aset ((alookup (store_state cfg s m1 k m1.record).records_to_load m2.stream).getD [])
        k ⟨m2.record, (alookup (store_state cfg s m1 k m1.record).schema_ver m2.stream).getD 0⟩,
      ?_, ?_, ?_⟩
    · rw [hrec2]
      exact alookup_aset_self _ _ _
    · apply List.count_eq_one_of_mem
      · apply nodup_keys_aset
        rw [hl1]
        simp only [Option.getD_some]
        exact nodup_keys_aset _ _ _ (buf_nodup_of_inv s m1.stream hInv)
      · exact mem_keys_aset_self _ _ _
    · rw [alookup_aset_self]
      rfl

theorem buffer_last_write_wins_witness :
    ∃ buf,
      alookup
        ({ state := PyVal.none, schemas := ["s"], key_properties := [("s", ["id"])],
           records_to_load :=
             [("s", [("1", ⟨PyVal.dict [("id", PyVal.int 1), ("x", PyVal.str "b")], 1⟩)])],
           row_count := [("s", 1)], schema_ver := [("s", 1)], flushed := [] }
          : PState).records_to_load
        ({ stream := "s",
           record := PyVal.dict [("id", PyVal.int 1), ("x", PyVal.str "b")] }
          : RecordMsg).stream = some buf ∧
      (buf.map Prod.fst).count "1" = 1 ∧
      (alookup buf "1").map Row.value
        = some (PyVal.dict [("id", PyVal.int 1), ("x", PyVal.str "b")]) :=
  buffer_last_write_wins.2 defaultConfig
    { state := PyVal.none, schemas := ["s"], key_properties := [("s", ["id"])],
      records_to_load := [], row_count := [("s", 0)], schema_ver := [("s", 1)],
      flushed := [] }
    { state := PyVal.none, schemas := ["s"], key_properties := [("s", ["id"])],
      records_to_load :=
        [("s", [("1", ⟨PyVal.dict [("id", PyVal.int 1), ("x", PyVal.str "a")], 1⟩)])],
      row_count := [("s", 1)], schema_ver := [("s", 1)], flushed := [] }
    { state := PyVal.none, schemas := ["s"], key_properties := [("s", ["id"])],
      records_to_load :=
        [("s", [("1", ⟨PyVal.dict [("id", PyVal.int 1), ("x", PyVal.str "b")], 1⟩)])],
      row_count := [("s", 1)], schema_ver := [("s", 1)], flushed := [] }
    { stream := "s", record := PyVal.dict [("id", PyVal.int 1), ("x", PyVal.str "a")] }
    { stream := "s", record := PyVal.dict [("id", PyVal.int 1), ("x", PyVal.str "b")] }
    "1" rfl rfl
    (by intro st b h; simp [alookup] at h)
    rfl rfl rfl rfl rfl rfl rfl

theorem store_state_of_lt (cfg : Config) (s : PState) (m : RecordMsg) (pk : String)
    (payload : PyVal)
    (h : ¬ (aset ((alookup s.records_to_load m.stream).getD []) pk
        (⟨payload, (alookup s.schema_ver m.stream).getD 0⟩ : Row)).length ≥ cfg.batchSizeRows) :
    store_state cfg s m pk payload
      = { s with
          records_to_load := aset s.records_to_load m.stream
            (aset ((alookup s.records_to_load m.stream).getD []) pk
              ⟨payload, (alookup s.schema_ver m.stream).getD 0⟩),
          row_count := aset s.row_count m.stream
            (aset ((alookup s.records_to_load m.stream).getD []) pk
              ⟨payload, (alookup s.schema_ver m.stream).getD 0⟩).length,
          state := .none } := by
  simp only [store_state]
  rw [if_neg h]

/-- A record whose stream has an empty primary-key field list takes the
synthetic key path: the derived key is `RID-<row_count[stream]>`. -/
theorem step_keyless (cfg : Config) (s : PState) (m : RecordMsg) (i : Nat)
    (hmem : m.stream ∈ s.schemas) (hval : m.validate = .ok)
    (hkp : alookup s.key_properties m.stream = some [])
    (hrc : alookup s.row_count m.stream = some i)
    (hmeta : cfg.add_metadata_columns = false) (hhd : cfg.hard_delete = false) :
    step cfg s (.record m) = .ok (store_state cfg s m ("RID-" ++ natToStr i) m.record) := by
  obtain ⟨stream, r, te, val, now⟩ := m
  simp only at hval hkp hrc hmem
  subst hval
  simp only [step, process_record, hmem, if_true]
  simp only [process_record_body, hkp]
  rw [show record_primary_key_string [] r = Option.none from by
    simp [record_primary_key_string]]
  rw [show pyFalsy Option.none = true from rfl]
  simp only [if_true, hrc]
  simp [process_record_store, payload_of, hmeta, hhd]

/-- The synthetic keys of the first `n` buffer positions. -/
def ridKeys (n : Nat) : List String := (List.range n).map (fun j => "RID-" ++ natToStr j)

theorem rid_not_mem (i : Nat) : ("RID-" ++ natToStr i) ∉ ridKeys i := by
  simp only [ridKeys, List.mem_map, not_exists]
  intro j hj
  obtain ⟨hjr, heq⟩ := hj
  have := rid_key_inj j i heq
  have hjlt := List.mem_range.mp hjr
  omega

theorem ridKeys_succ (i : Nat) :
    ridKeys (i + 1) = ridKeys i ++ ["RID-" ++ natToStr i] := by
  simp [ridKeys, List.range_succ]

theorem keyless_fill_aux (cfg : Config) (stream : String)
    (hmeta : cfg.add_metadata_columns = false) (hhd : cfg.hard_delete = false) :
    ∀ (ms : List RecordMsg) (s : PState) (i : Nat),
    (∀ m ∈ ms, m.stream = stream ∧ m.validate = .ok) →
    stream ∈ s.schemas →
    alookup s.key_properties stream = some [] →
    alookup s.row_count stream = some i →
    ((alookup s.records_to_load stream).getD []).map Prod.fst = ridKeys i →
    ((alookup s.records_to_load stream).getD []).length = i →
    i + ms.length < cfg.batchSizeRows →
    ∃ s', (ms.map Msg.record).foldlM (step cfg) s = .ok s' ∧
      stream ∈ s'.schemas ∧
      alookup s'.key_properties stream = some [] ∧
      alookup s'.row_count stream = some (i + ms.length) ∧
      ((alookup s'.records_to_load stream).getD []).map Prod.fst = ridKeys (i + ms.length) ∧
      ((alookup s'.records_to_load stream).getD []).length = i + ms.length := by
  intro ms
  induction ms with
  | nil =>
    intro s i hms hmem hkp hrc hkeys hlen hbound
    exact ⟨s, rfl, hmem, hkp, by simpa using hrc, by simpa using hkeys, by simpa using hlen⟩
  | cons m rest ih =>
    intro s i hms hmem hkp hrc hkeys hlen hbound
    obtain ⟨hm_stream, hm_val⟩ := hms m (List.mem_cons_self m rest)
    have hmem' : m.stream ∈ s.schemas := by rw [hm_stream]; exact hmem
    have hkp' : alookup s.key_properties m.stream = some [] := by rw [hm_stream]; exact hkp
    have hrc' : alookup s.row_count m.stream = some i := by rw [hm_stream]; exact hrc
    have hstep := step_keyless cfg s m i hmem' hm_val hkp' hrc' hmeta hhd
    have hfresh : ("RID-" ++ natToStr i)
        ∉ ((alookup s.records_to_load m.stream).getD []).map Prod.fst := by
      rw [hm_stream, hkeys]
      exact rid_not_mem i
    have hlen' : (aset ((alookup s.records_to_load m.stream).getD []) ("RID-" ++ natToStr i)
        (⟨m.record, (alookup s.schema_ver m.stream).getD 0⟩ : Row)).length = i + 1 := by
      rw [length_aset, if_neg hfresh, hm_stream, hlen]
    have hnotge : ¬ (aset ((alookup s.records_to_load m.stream).getD [])
        ("RID-" ++ natToStr i)
        (⟨m.record, (alookup s.schema_ver m.stream).getD 0⟩ : Row)).length
          ≥ cfg.batchSizeRows := by
      rw [hlen']
      simp only [List.length_cons] at hbound
      omega
    rw [store_state_of_lt cfg s m _ m.record hnotge] at hstep
    have hkeys1 : (aset ((alookup s.records_to_load m.stream).getD [])
        ("RID-" ++ natToStr i)
        (⟨m.record, (alookup s.schema_ver m.stream).getD 0⟩ : Row)).map Prod.fst
          = ridKeys (i + 1) := by
      rw [keys_aset, if_neg hfresh, hm_stream, hkeys, ridKeys_succ]
    obtain ⟨s', hfold, hc1, hc2, hc3, hc4, hc5⟩ := ih
      { s with
        records_to_load := aset s.records_to_load m.stream
          (aset ((alookup s.records_to_load m.stream).getD []) ("RID-" ++ natToStr i)
            ⟨m.record, (alookup s.schema_ver m.stream).getD 0⟩),
        row_count := aset s.row_count m.stream
          (aset ((alookup s.records_to_load m.stream).getD []) ("RID-" ++ natToStr i)
            ⟨m.record, (alookup s.schema_ver m.stream).getD 0⟩).length,
        state := .none }
      (i + 1)
      (fun m' hm' => hms m' (List.mem_cons_of_mem m hm'))
      hmem
      (by simpa using hkp)
      (by rw [hm_stream] at hlen' ⊢; simpa [alookup_aset_self] using hlen')
      (by rw [hm_stream] at hkeys1 ⊢; simpa [alookup_aset_self] using hkeys1)
      (by rw [hm_stream] at hlen' ⊢; simpa [alookup_aset_self] using hlen')
      (by simp only [List.length_cons] at hbound; omega)
    refine ⟨s', ?_, hc1, hc2, ?_, ?_, ?_⟩
    · simp only [List.map_cons, List.foldlM_cons, hstep]
      rw [show (Except.ok ({ s with
          records_to_load := aset s.records_to_load m.stream
            (aset ((alookup s.records_to_load m.stream).getD []) ("RID-" ++ natToStr i)
              ⟨m.record, (alookup s.schema_ver m.stream).getD 0⟩),
          row_count := aset s.row_count m.stream
            (aset ((alookup s.records_to_load m.stream).getD []) ("RID-" ++ natToStr i)
              ⟨m.record, (alookup s.schema_ver m.stream).getD 0⟩).length,
          state := .none } : PState) : Except String PState) >>=
          (fun x => (rest.map Msg.record).foldlM (step cfg) x)
          = (rest.map Msg.record).foldlM (step cfg) { s with
          records_to_load := aset s.records_to_load m.stream
            (aset ((alookup s.records_to_load m.stream).getD []) ("RID-" ++ natToStr i)
              ⟨m.record, (alookup s.schema_ver m.stream).getD 0⟩),
          row_count := aset s.row_count m.stream
            (aset ((alookup s.records_to_load m.stream).getD []) ("RID-" ++ natToStr i)
              ⟨m.record, (alookup s.schema_ver m.stream).getD 0⟩).length,
          state := .none } from rfl]
      exact hfold
    · rw [show i + (m :: rest).length = (i + 1) + rest.length from by
        simp only [List.length_cons]; omega]
      exact hc3
    · rw [show i + (m :: rest).length = (i + 1) + rest.length from by
        simp only [List.length_cons]; omega]
      exact hc4
    · rw [show i + (m :: rest).length = (i + 1) + rest.length from by
        simp only [List.length_cons]; omega]
      exact hc5

/-- C8: records lacking primary-key fields (their stream declared an empty
primary-key field list, so the derived key is falsy and the synthetic key
`RID-<n>` with `n` the current row counter is used) receive pairwise
distinct synthetic keys within a single buffer-fill cycle - a run starting
from an empty buffer with row counter zero and too short to trigger a
flush - and therefore do not collapse: after `n` such records the buffer
holds exactly `n` rows whose keys are `RID-0 .. RID-(n-1)`, a
duplicate-free list. -/
theorem synthetic_keys_distinct_within_cycle (cfg : Config) (stream : String)
    (ms : List RecordMsg) (s s' : PState)
    (hmeta : cfg.add_metadata_columns = false) (hhd : cfg.hard_delete = false)
    (hms : ∀ m ∈ ms, m.stream = stream ∧ m.validate = .ok)
    (hmem : stream ∈ s.schemas)
    (hkp : alookup s.key_properties stream = some [])
    (hrc : alookup s.row_count stream = some 0)
    (hbuf : (alookup s.records_to_load stream).getD [] = [])
    (hn : ms.length < cfg.batchSizeRows)
    (h : (ms.map Msg.record).foldlM (step cfg) s = .ok s') :
    ((alookup s'.records_to_load stream).getD []).map Prod.fst = ridKeys ms.length ∧
    ((alookup s'.records_to_load stream).getD []).length = ms.length ∧
    (ridKeys ms.length).Nodup := by
  obtain ⟨s'', hfold, _, _, _, hkeys, hlen⟩ :=
    keyless_fill_aux cfg stream hmeta hhd ms s 0 hms hmem hkp hrc
      (by rw [hbuf]; rfl) (by rw [hbuf]; rfl) (by simpa using hn)
  rw [h] at hfold
  injection hfold with hfold
  subst hfold
  refine ⟨by simpa using hkeys, by simpa using hlen, ?_⟩
  exact List.Nodup.map (fun a b hab => rid_key_inj a b hab) (List.nodup_range _)

theorem synthetic_keys_distinct_within_cycle_witness :
    ((alookup
        ({ state := PyVal.none, schemas := ["s"], key_properties := [("s", [])],
           records_to_load :=
             [("s", [("RID-0", ⟨PyVal.dict [("a", PyVal.int 1)], 1⟩),
                     ("RID-1", ⟨PyVal.dict [("a", PyVal.int 2)], 1⟩)])],
           row_count := [("s", 2)], schema_ver := [("s", 1)], flushed := [] }
          : PState).records_to_load "s").getD []).map Prod.fst
        = ridKeys ([{ stream := "s", record := PyVal.dict [("a", PyVal.int 1)] },
                    { stream := "s", record := PyVal.dict [("a", PyVal.int 2)] }]
            : List RecordMsg).length ∧
    ((alookup
        ({ state := PyVal.none, schemas := ["s"], key_properties := [("s", [])],
           records_to_load :=
             [("s", [("RID-0", ⟨PyVal.dict [("a", PyVal.int 1)], 1⟩),
                     ("RID-1", ⟨PyVal.dict [("a", PyVal.int 2)], 1⟩)])],
           row_count := [("s", 2)], schema_ver := [("s", 1)], flushed := [] }
          : PState).records_to_load "s").getD []).length
        = ([{ stream := "s", record := PyVal.dict [("a", PyVal.int 1)] },
            { stream := "s", record := PyVal.dict [("a", PyVal.int 2)] }]
            : List RecordMsg).length ∧
    (ridKeys ([{ stream := "s", record := PyVal.dict [("a", PyVal.int 1)] },
               { stream := "s", record := PyVal.dict [("a", PyVal.int 2)] }]
        : List RecordMsg).length).Nodup :=
  synthetic_keys_distinct_within_cycle defaultConfig "s"
    [{ stream := "s", record := PyVal.dict [("a", PyVal.int 1)] },
     { stream := "s", record := PyVal.dict [("a", PyVal.int 2)] }]
    { state := PyVal.none, schemas := ["s"], key_properties := [("s", [])],
      records_to_load := [], row_count := [("s", 0)], schema_ver := [("s", 1)],
      flushed := [] }
    { state := PyVal.none, schemas := ["s"], key_properties := [("s", [])],
      records_to_load :=
        [("s", [("RID-0", ⟨PyVal.dict [("a", PyVal.int 1)], 1⟩),
                ("RID-1", ⟨PyVal.dict [("a", PyVal.int 2)], 1⟩)])],
      row_count := [("s", 2)], schema_ver := [("s", 1)], flushed := [] }
    rfl rfl
    (by intro m hm; simp only [List.mem_cons] at hm
        rcases hm with h1 | h2 | h3
        · subst h1; exact ⟨rfl, rfl⟩
        · subst h2; exact ⟨rfl, rfl⟩
        · cases h3)
    (by simp) rfl rfl rfl (by decide) rfl
